import Mathlib

/-!
Verification of the granular-synthesis engine in
src/CURRENT_ThinkingLFESolutions.cpp (repository Surround-3).

Each C++ function relevant to the frozen claims is translated into a Lean
definition of the same name (shallow embedding).  Machine integers are
modelled as Nat/Int with explicit wrapping (mod 2^32) where the C++ uses
uint32_t arithmetic whose wrapping is observable; float quantities that the
claims reason about numerically (the travel factor, grain gains) are
modelled as rationals, and the envelope table, which the claims compare
against exact trigonometric identities, as real numbers.
-/

namespace Surround3

/-! ## Sequence DSL parsing (function_sequence_parse, lines 248-283)

The C++ parser tokenizes with `stream >> token` (splitting on the C locale
whitespace characters) and converts numeric text with `std::stoi`, which
throws `std::invalid_argument` when no digits can be read and
`std::out_of_range` when the value does not fit in int; neither exception is
caught anywhere in the program, so a throw aborts the process.  `std::stoi`
stops at the first non-numeric character, so a token such as "12abc"
converts to 12 without error. -/

/-- Whitespace as classified by the C locale isspace used by stream >> token. -/
def isSpaceChar (c : Char) : Bool :=
  c = ' ' || c = '\t' || c = '\n' || c = '\r' || c = '\x0b' || c = '\x0c'

/-- Splits a character list into the whitespace-separated tokens that
successive `stream >> token` reads produce.  The accumulator holds the
current token reversed. -/
def tokenizeAux : List Char → List Char → List (List Char)
  | [], acc => if acc = [] then [] else [acc.reverse]
  | c :: rest, acc =>
    if isSpaceChar c then
      if acc = [] then tokenizeAux rest [] else acc.reverse :: tokenizeAux rest []
    else
      tokenizeAux rest (c :: acc)

def tokenize (s : String) : List (List Char) := tokenizeAux s.toList []

def isDigitChar (c : Char) : Bool := '0' ≤ c && c ≤ '9'

def digitVal (c : Char) : Nat := c.toNat - '0'.toNat

def digitsToNat (ds : List Char) : Nat :=
  ds.foldl (fun n c => n * 10 + digitVal c) 0

/-- Drops the single optional sign character stoi accepts. -/
def stripSign (cs : List Char) : List Char :=
  match cs with
  | [] => []
  | c :: r => if c = '+' ∨ c = '-' then r else c :: r

/-- The sign stoi reads from the first character. -/
def signOf (cs : List Char) : Int :=
  match cs with
  | [] => 1
  | c :: _ => if c = '-' then -1 else 1

/-- Model of std::stoi on a whitespace-free token: optional sign, then a
maximal digit run.  Error () stands for the (uncaught, hence fatal)
invalid_argument exception when no digit follows the sign, and for the
out_of_range exception when the value does not fit in a 32-bit int.
Conversion stops at the first non-digit character, exactly as stoi does. -/
def stoiCore (cs : List Char) : Except Unit Int :=
  let ds := (stripSign cs).takeWhile isDigitChar
  if ds = [] then Except.error ()
  else
    let v : Int := signOf cs * (digitsToNat ds : Int)
    if v < -2147483648 ∨ 2147483647 < v then Except.error ()
    else Except.ok v

/-- Splits a token at its first asterisk (token.find of the star plus the two
substr calls), returning none when the token has no asterisk. -/
def splitAtStar : List Char → Option (List Char × List Char)
  | [] => none
  | c :: rest =>
    if c = '*' then some ([], rest)
    else
      match splitAtStar rest with
      | some (a, b) => some (c :: a, b)
      | none => none

/-- The grains one token of function_sequence_parse contributes: "x" pushes
-1; a token with an asterisk pushes the resolved target count times (stoi of
the count side runs first, as in the C++); any other token is pushed through
stoi.  A non-positive repeat count runs the push loop zero times. -/
def parseTokenGrains (tok : List Char) : Except Unit (List Int) :=
  if tok = ['x'] then
    Except.ok [(-1 : Int)]
  else
    match splitAtStar tok with
    | some (token_ch, count_cs) =>
      match stoiCore count_cs with
      | Except.error e => Except.error e
      | Except.ok stay_grain =>
        match (if token_ch = ['x'] then Except.ok (-1 : Int) else stoiCore token_ch) with
        | Except.error e => Except.error e
        | Except.ok object_ch => Except.ok (List.replicate stay_grain.toNat object_ch)
    | none =>
      match stoiCore tok with
      | Except.error e => Except.error e
      | Except.ok object_ch => Except.ok [object_ch]

/-- Folds parseTokenGrains over the token list, concatenating the produced
grains; an exception from any token propagates (the C++ loop simply throws
out of the whole function). -/
def parseTokens : List (List Char) → Except Unit (List Int)
  | [] => Except.ok []
  | t :: ts =>
    match parseTokenGrains t with
    | Except.error e => Except.error e
    | Except.ok g =>
      match parseTokens ts with
      | Except.error e => Except.error e
      | Except.ok r => Except.ok (g ++ r)

/-- Model of function_sequence_parse (lines 248-283). -/
def function_sequence_parse (istring_sequence : String) : Except Unit (List Int) :=
  parseTokens (tokenize istring_sequence)

/-! Well-formedness per the spec grammar: NUMBER, "x", or TOKEN*COUNT with
TOKEN a NUMBER or "x" and COUNT a positive integer. -/

/-- Text that is a valid integer in full: optional sign, at least one digit,
nothing else, and within int range. -/
def validInt (cs : List Char) : Bool :=
  stripSign cs ≠ [] && (stripSign cs).all isDigitChar &&
    decide (-2147483648 ≤ signOf cs * (digitsToNat (stripSign cs) : Int) ∧
            signOf cs * (digitsToNat (stripSign cs) : Int) ≤ 2147483647)

/-- A token of the spec grammar. -/
def wfToken (tok : List Char) : Bool :=
  tok = ['x'] || validInt tok ||
    (match splitAtStar tok with
     | some (a, b) => (a = ['x'] || validInt a) && validInt b &&
         decide (0 < digitsToNat (b.takeWhile isDigitChar))
     | none => false)

/-- The expansion length one well-formed token declares: its repeat count for
a starred token, 1 for a singleton. -/
def declaredLen (tok : List Char) : Nat :=
  match splitAtStar tok with
  | some (_, b) =>
    match stoiCore b with
    | Except.ok v => v.toNat
    | Except.error _ => 0
  | none => 1

/-- A list all of whose characters are digits is its own maximal digit run. -/
theorem takeWhile_of_all_digits (ds : List Char) (h : ds.all isDigitChar = true) :
    ds.takeWhile isDigitChar = ds := by
  induction ds with
  | nil => rfl
  | cons c cs ih =>
    simp only [List.all_cons, Bool.and_eq_true] at h
    simp [List.takeWhile, h.1, ih h.2]

/-- splitAtStar finds nothing in a star-free token. -/
theorem splitAtStar_eq_none (cs : List Char) (h : '*' ∉ cs) :
    splitAtStar cs = none := by
  induction cs with
  | nil => rfl
  | cons c rest ih =>
    simp only [List.mem_cons, not_or] at h
    have hne : ¬ (c = '*') := fun hc => h.1 hc.symm
    simp [splitAtStar, hne, ih h.2]

/-- Membership in a token passes to its unsigned body for any character that
is not a sign character. -/
theorem mem_stripSign (c : Char) (hp : c ≠ '+') (hm : c ≠ '-') (cs : List Char)
    (h : c ∈ cs) : c ∈ stripSign cs := by
  match cs, h with
  | a :: r, h =>
    unfold stripSign
    rcases List.mem_cons.mp h with rfl | hr
    · have : ¬ (c = '+' ∨ c = '-') := by
        rintro (h1 | h1)
        · exact hp h1
        · exact hm h1
      simp [this]
    · by_cases hs : a = '+' ∨ a = '-' <;> simp [hs, hr]

/-- A fully valid integer token contains no asterisk. -/
theorem validInt_no_star (cs : List Char) (h : validInt cs = true) : '*' ∉ cs := by
  intro hmem
  unfold validInt at h
  simp only [Bool.and_eq_true, decide_eq_true_eq, ne_eq] at h
  have hstar : ('*' : Char) ∈ stripSign cs :=
    mem_stripSign '*' (by decide) (by decide) cs hmem
  have hdig : isDigitChar '*' = true := by
    have := h.1.2
    rw [List.all_eq_true] at this
    exact this _ hstar
  exact absurd hdig (by decide)

/-- stoi succeeds on a fully valid integer token, returning its value. -/
theorem stoiCore_of_validInt (cs : List Char) (h : validInt cs = true) :
    stoiCore cs = Except.ok (signOf cs * (digitsToNat (stripSign cs) : Int)) := by
  unfold validInt at h
  simp only [Bool.and_eq_true, decide_eq_true_eq, ne_eq] at h
  obtain ⟨⟨hne, hall⟩, hlo, hhi⟩ := h
  have hrange : ¬ (signOf cs * (digitsToNat (stripSign cs) : Int) < -2147483648 ∨
      2147483647 < signOf cs * (digitsToNat (stripSign cs) : Int)) := by
    push_neg
    exact ⟨hlo, hhi⟩
  simp [stoiCore, takeWhile_of_all_digits _ hall, hne, hrange]

/-- A token split at an asterisk contains an asterisk. -/
theorem splitAtStar_some_mem (cs a b : List Char) (h : splitAtStar cs = some (a, b)) :
    '*' ∈ cs := by
  induction cs generalizing a b with
  | nil => simp [splitAtStar] at h
  | cons c rest ih =>
    by_cases hc : c = '*'
    · subst hc
      exact List.mem_cons_self _ _
    · simp only [splitAtStar, hc, if_false] at h
      cases hrec : splitAtStar rest with
      | none => rw [hrec] at h; simp at h
      | some ab2 =>
        obtain ⟨a2, b2⟩ := ab2
        exact List.mem_cons_of_mem _ (ih a2 b2 hrec)

/-- A well-formed token parses without error into exactly declaredLen grains. -/
theorem parseTokenGrains_wf (tok : List Char) (h : wfToken tok = true) :
    ∃ g, parseTokenGrains tok = Except.ok g ∧ g.length = declaredLen tok := by
  by_cases hx : tok = ['x']
  · subst hx
    exact ⟨[(-1 : Int)], rfl, rfl⟩
  cases hsplit : splitAtStar tok with
  | none =>
    unfold wfToken at h
    rw [hsplit] at h
    simp only [Bool.or_eq_true, Bool.and_eq_true, decide_eq_true_eq, Bool.or_false] at h
    rcases h with hx' | hv
    · exact absurd hx' hx
    · refine ⟨[signOf tok * (digitsToNat (stripSign tok) : Int)], ?_, ?_⟩
      · simp [parseTokenGrains, hx, hsplit, stoiCore_of_validInt tok hv]
      · simp [declaredLen, hsplit]
  | some ab =>
    obtain ⟨a, b⟩ := ab
    unfold wfToken at h
    rw [hsplit] at h
    simp only [Bool.or_eq_true, Bool.and_eq_true, decide_eq_true_eq] at h
    rcases h with (hx' | hv) | h
    · exact absurd hx' hx
    · exact absurd (splitAtStar_some_mem tok a b hsplit) (validInt_no_star tok hv)
    · obtain ⟨⟨ha, hb⟩, _⟩ := h
      have hsb := stoiCore_of_validInt b hb
      have hobj : ∃ o : Int,
          (if a = ['x'] then Except.ok (-1 : Int) else stoiCore a) = Except.ok o := by
        by_cases hax : a = ['x']
        · exact ⟨-1, by simp [hax]⟩
        · rcases ha with hax' | hav
          · exact absurd hax' hax
          · exact ⟨signOf a * (digitsToNat (stripSign a) : Int),
              by simp [hax, stoiCore_of_validInt a hav]⟩
      obtain ⟨o, ho⟩ := hobj
      refine ⟨List.replicate (signOf b * (digitsToNat (stripSign b) : Int)).toNat o, ?_, ?_⟩
      · simp [parseTokenGrains, hx, hsplit, hsb, ho]
      · simp [declaredLen, hsplit, hsb]

/-- All tokens well-formed: the parse succeeds and its length is the sum of
the per-token declared lengths. -/
theorem parseTokens_wf (ts : List (List Char)) (h : ts.all wfToken = true) :
    ∃ l, parseTokens ts = Except.ok l ∧ l.length = (ts.map declaredLen).sum := by
  induction ts with
  | nil => exact ⟨[], rfl, rfl⟩
  | cons t ts ih =>
    simp only [List.all_cons, Bool.and_eq_true] at h
    obtain ⟨g, hg, hglen⟩ := parseTokenGrains_wf t h.1
    obtain ⟨l, hl, hllen⟩ := ih h.2
    refine ⟨g ++ l, ?_, ?_⟩
    · simp [parseTokens, hg, hl]
    · simp [hglen, hllen]

/-- C4: parsing the demonstration string yields exactly the 18-element list,
and on every well-formed input the expansion length is the sum of the
declared repeat counts plus the number of singleton tokens (each singleton
declaring length 1). -/
theorem C4_parse_example_and_expansion_length :
    (function_sequence_parse "1 2 3*5 x 2*7 x*3" =
      Except.ok [1, 2, 3, 3, 3, 3, 3, -1, 2, 2, 2, 2, 2, 2, 2, -1, -1, -1]) ∧
    (∀ s : String, (tokenize s).all wfToken = true →
      ∃ l, function_sequence_parse s = Except.ok l ∧
        l.length = ((tokenize s).map declaredLen).sum) :=
  ⟨rfl, fun s hs => parseTokens_wf (tokenize s) hs⟩

/-- C4 witness: the well-formedness hypothesis discharged on the
demonstration string itself. -/
theorem C4_parse_witness :
    ((tokenize "1 2 3*5 x 2*7 x*3").all wfToken = true) ∧
    (∃ l, function_sequence_parse "1 2 3*5 x 2*7 x*3" = Except.ok l ∧
      l.length = ((tokenize "1 2 3*5 x 2*7 x*3").map declaredLen).sum) :=
  ⟨by decide, C4_parse_example_and_expansion_length.2 _ (by decide)⟩

/-- The parse throws exactly when some token throws. -/
theorem parseTokens_error_iff (ts : List (List Char)) :
    parseTokens ts = Except.error () ↔
      ∃ t ∈ ts, parseTokenGrains t = Except.error () := by
  induction ts with
  | nil => simp [parseTokens]
  | cons t ts ih =>
    constructor
    · intro h
      cases hg : parseTokenGrains t with
      | error e =>
        cases e
        exact ⟨t, List.mem_cons_self _ _, hg⟩
      | ok g =>
        unfold parseTokens at h
        rw [hg] at h
        cases hr : parseTokens ts with
        | error e =>
          cases e
          obtain ⟨t2, ht2, herr2⟩ := ih.mp hr
          exact ⟨t2, List.mem_cons_of_mem _ ht2, herr2⟩
        | ok r =>
          rw [hr] at h
          simp at h
    · rintro ⟨t2, ht2, herr2⟩
      rcases List.mem_cons.mp ht2 with rfl | hmem
      · unfold parseTokens
        rw [herr2]
      · unfold parseTokens
        cases hg : parseTokenGrains t with
        | error e => cases e; rfl
        | ok g => rw [ih.mpr ⟨t2, hmem, herr2⟩]

/-- A maximal digit run followed by a non-digit character is cut exactly at
that character. -/
theorem takeWhile_digits_append (ds : List Char) (r : Char) (rest : List Char)
    (hall : ds.all isDigitChar = true) (hr : isDigitChar r = false) :
    (ds ++ r :: rest).takeWhile isDigitChar = ds := by
  induction ds with
  | nil => simp [List.takeWhile, hr]
  | cons d ds ih =>
    simp only [List.all_cons, Bool.and_eq_true] at hall
    simp [List.takeWhile, hall.1, ih hall.2]

/-- A digit is not a sign character. -/
theorem digit_not_sign (d : Char) (hd : isDigitChar d = true) : d ≠ '+' ∧ d ≠ '-' := by
  constructor <;> intro hEq <;> subst hEq <;> exact absurd hd (by decide)

/-- Digits never include the asterisk. -/
theorem star_not_mem_digits (ds : List Char) (hall : ds.all isDigitChar = true) :
    '*' ∉ ds := by
  intro hmem
  rw [List.all_eq_true] at hall
  exact absurd (hall _ hmem) (by decide)

/-- C8 counterexample: the token "12abc" is not a valid integer, yet the
parser accepts the input silently, partially parsing the token as 12 —
contradicting the claim that every such token is a fatal parse error. -/
theorem C8_claim_counterexample :
    validInt "12abc".toList = false ∧
    function_sequence_parse "12abc" = Except.ok [12] :=
  ⟨by decide, rfl⟩

/-- C8 amended: the parser fails — with an exception no caller catches, so
the process aborts — exactly when some token throws inside stoi, i.e. when
the text on a side of the asterisk (or a bare non-x token) has no leading
integer at all or overflows int; a token that merely carries trailing
non-numeric garbage after a valid integer prefix is not an error: it is
silently parsed as that prefix (so it is not a valid integer, yet no failure
occurs and the prefix value enters the sequence). -/
theorem C8_fatal_error_conditions :
    (∀ s : String, function_sequence_parse s = Except.error () ↔
      ∃ t ∈ tokenize s, parseTokenGrains t = Except.error ()) ∧
    (∀ (ds : List Char) (r : Char) (rest : List Char),
      ds ≠ [] → ds.all isDigitChar = true → isDigitChar r = false → r ≠ '*' →
      '*' ∉ rest → (digitsToNat ds : Int) ≤ 2147483647 →
      validInt (ds ++ r :: rest) = false ∧
      parseTokenGrains (ds ++ r :: rest) = Except.ok [(digitsToNat ds : Int)]) := by
  constructor
  · intro s
    exact parseTokens_error_iff (tokenize s)
  · intro ds r rest hne hall hr hrstar hreststar hrange
    obtain ⟨d, ds2, rfl⟩ : ∃ d ds2, ds = d :: ds2 := by
      cases ds with
      | nil => exact absurd rfl hne
      | cons d ds2 => exact ⟨d, ds2, rfl⟩
    have hd : isDigitChar d = true := by
      simp only [List.all_cons, Bool.and_eq_true] at hall
      exact hall.1
    have hdsign := digit_not_sign d hd
    have hstrip : stripSign (d :: (ds2 ++ r :: rest)) = d :: (ds2 ++ r :: rest) := by
      have hno : ¬ (d = '+' ∨ d = '-') := by
        rintro (hEq | hEq)
        · exact hdsign.1 hEq
        · exact hdsign.2 hEq
      simp [stripSign, hno]
    have hsign : signOf (d :: (ds2 ++ r :: rest)) = 1 := by
      simp [signOf, hdsign.2]
    have hstar : splitAtStar (d :: (ds2 ++ r :: rest)) = none := by
      apply splitAtStar_eq_none
      intro hmem
      rcases List.mem_cons.mp hmem with hEq | hmem0
      · rw [← hEq] at hd
        exact absurd hd (by decide)
      · rcases List.mem_append.mp hmem0 with hmem1 | hmem2
        · have hall2 : ds2.all isDigitChar = true := by
            simp only [List.all_cons, Bool.and_eq_true] at hall
            exact hall.2
          exact star_not_mem_digits _ hall2 hmem1
        · rcases List.mem_cons.mp hmem2 with hEq | hmem3
          · exact hrstar hEq.symm
          · exact hreststar hmem3
    have htake : (d :: (ds2 ++ r :: rest)).takeWhile isDigitChar = d :: ds2 :=
      takeWhile_digits_append _ _ _ hall hr
    have hnotall : (d :: (ds2 ++ r :: rest)).all isDigitChar = false := by
      rw [Bool.eq_false_iff]
      intro habs
      rw [List.all_eq_true] at habs
      have hrd : isDigitChar r = true := habs r (by simp)
      rw [hr] at hrd
      exact absurd hrd (by simp)
    have hnx : d :: (ds2 ++ r :: rest) ≠ ['x'] := by
      intro habs
      have hlen : (d :: (ds2 ++ r :: rest)).length = 1 := by rw [habs]; rfl
      simp at hlen
    have hstoi : stoiCore (d :: (ds2 ++ r :: rest)) =
        Except.ok ((digitsToNat (d :: ds2) : Int)) := by
      have hnotrange : ¬ ((1 : Int) * (digitsToNat (d :: ds2) : Int) < -2147483648 ∨
          2147483647 < (1 : Int) * (digitsToNat (d :: ds2) : Int)) := by
        push_neg
        constructor
        · omega
        · omega
      simp only [stoiCore, hstrip, htake, hsign]
      rw [if_neg (by simp), if_neg hnotrange]
      rw [one_mul]
    refine ⟨?_, ?_⟩
    · show validInt (d :: (ds2 ++ r :: rest)) = false
      simp [validInt, hstrip, hnotall]
    · show parseTokenGrains (d :: (ds2 ++ r :: rest)) = Except.ok [(digitsToNat (d :: ds2) : Int)]
      rw [parseTokenGrains, if_neg hnx, hstar, hstoi]

/-- C8 witness: the silent-prefix conclusion instantiated on the token
"12abc", every hypothesis discharged concretely. -/
theorem C8_fatal_error_witness :
    ((['1', '2'] : List Char) ≠ [] ∧ (['1', '2'] : List Char).all isDigitChar = true ∧
      isDigitChar 'a' = false ∧ 'a' ≠ '*' ∧ '*' ∉ (['b', 'c'] : List Char) ∧
      (digitsToNat ['1', '2'] : Int) ≤ 2147483647) ∧
    (validInt (['1', '2'] ++ 'a' :: ['b', 'c']) = false ∧
      parseTokenGrains (['1', '2'] ++ 'a' :: ['b', 'c']) =
        Except.ok [(digitsToNat ['1', '2'] : Int)]) :=
  ⟨⟨by decide, by decide, by decide, by decide, by decide, by decide⟩,
    C8_fatal_error_conditions.2 ['1', '2'] 'a' ['b', 'c']
      (by decide) (by decide) (by decide) (by decide) (by decide) (by decide)⟩

/-! ## Sequence translation (show_sequence_translations, lines 644-688)

The C++ builds, for each of the 6 permutation rows, three replacement pairs
(old id text, new id text) from the current channel anchors, sorts them by
length of the old text descending with std::sort, and applies them one after
another, each pair running a full find/replace sweep over the working string
(continuing each search after the inserted replacement text). -/

/-- Decimal digits of a positive number, most significant first; fuel-driven
so the kernel can evaluate it (the fuel always suffices: n has at most n+1
digits). -/
def natDigitsAux : Nat → Nat → List Char
  | 0, _ => []
  | fuel + 1, n =>
    if n = 0 then []
    else natDigitsAux fuel (n / 10) ++ [Char.ofNat (48 + n % 10)]

/-- Model of std::to_string on a Nat. -/
def natToChars (n : Nat) : List Char :=
  if n = 0 then ['0'] else natDigitsAux (n + 1) n

/-- One full find/replace sweep of the C++ while loop over the working
string: finds old from the left, splices in new, and resumes searching right
after the inserted text.  Fuel-driven for kernel evaluation; each step
consumes at least one character of s when old is nonempty, so fuel
s.length + 1 is enough. -/
def replaceAllAux : Nat → List Char → List Char → List Char → List Char
  | 0, s, _, _ => s
  | fuel + 1, s, old, new =>
    match s with
    | [] => []
    | c :: rest =>
      if old.isPrefixOf (c :: rest) then
        new ++ replaceAllAux fuel ((c :: rest).drop old.length) old new
      else
        c :: replaceAllAux fuel rest old new

def replaceAll (s old new : List Char) : List Char :=
  if old = [] then s else replaceAllAux (s.length + 1) s old new

/-- Applies the replacement pairs one after another, a full sweep each — the
for loop over the sorted replacements vector. -/
def applyReplacements (reps : List (List Char × List Char)) (s : List Char) : List Char :=
  reps.foldl (fun acc p => replaceAll acc p.1 p.2) s

/-- Insertion by the std::sort comparator a.first.length() > b.first.length();
ties keep their original order. -/
def insertByLen (p : List Char × List Char) :
    List (List Char × List Char) → List (List Char × List Char)
  | [] => [p]
  | q :: qs => if p.1.length < q.1.length then q :: insertByLen p qs else p :: q :: qs

/-- Sorts the replacement pairs by old-text length, longest first (stable,
matching the comparator; std::sort leaves the order of equal-length pairs
unspecified, so the counterexample below also covers every other order). -/
def sortByLenDesc : List (List Char × List Char) → List (List Char × List Char)
  | [] => []
  | p :: ps => insertByLen p (sortByLenDesc ps)

/-- Model of one option of show_sequence_translations: anchors a1 a2 a3 are
the 0-based current channel assignments (the old ids are anchor+1), and
m1 m2 m3 is one row of the mappings table (the new ids). -/
def translate_option (a1 a2 a3 m1 m2 m3 : Nat) (s : List Char) : List Char :=
  applyReplacements
    (sortByLenDesc
      [(natToChars (a1 + 1), natToChars m1),
       (natToChars (a2 + 1), natToChars m2),
       (natToChars (a3 + 1), natToChars m3)]) s

/-- The 6 mapping rows of show_sequence_translations for new objects
n1 n2 n3; row 3 (0-based) is the rotate-left row old1 to new2, old2 to new3,
old3 to new1. -/
def seq_mappings (n1 n2 n3 : Nat) : List (Nat × Nat × Nat) :=
  [(n1, n2, n3), (n1, n3, n2), (n2, n1, n3), (n2, n3, n1), (n3, n1, n2), (n3, n2, n1)]

/-- All translated strings show_sequence_translations prints for anchors
a1 a2 a3 (one per mapping row, 6 in total). -/
def show_sequence_translations (a1 a2 a3 : Nat) (s : List Char) : List (List Char) :=
  (seq_mappings (a1 + 1) (a2 + 1) (a3 + 1)).map
    (fun m => translate_option a1 a2 a3 m.1 m.2.1 m.2.2 s)

/-- C1: with the default anchors the feature does print 6 strings, but the
sequential find/replace sweeps cascade — later pairs rewrite the output of
earlier ones — so option 4 (the rotate-left row, annotated 1 to 2, 2 to 3,
3 to 1 by the program itself) turns "1 2 3" into "1 1 1", not the "2 3 1"
that applying the permutation as a bijection would give; and no order of
applying the three rotate-left replacement pairs one after another (the
std::sort tie order is unspecified) produces "2 3 1" either. -/
theorem C1_translation_cascades :
    (show_sequence_translations 0 1 2 "1 2 3".toList).length = 6 ∧
    translate_option 0 1 2 2 3 1 "1 2 3".toList = "1 1 1".toList ∧
    "1 1 1".toList ≠ "2 3 1".toList ∧
    (∀ reps ∈ [[("1".toList, "2".toList), ("2".toList, "3".toList), ("3".toList, "1".toList)],
               [("1".toList, "2".toList), ("3".toList, "1".toList), ("2".toList, "3".toList)],
               [("2".toList, "3".toList), ("1".toList, "2".toList), ("3".toList, "1".toList)],
               [("2".toList, "3".toList), ("3".toList, "1".toList), ("1".toList, "2".toList)],
               [("3".toList, "1".toList), ("1".toList, "2".toList), ("2".toList, "3".toList)],
               [("3".toList, "1".toList), ("2".toList, "3".toList), ("1".toList, "2".toList)]],
      applyReplacements reps "1 2 3".toList ≠ "2 3 1".toList) := by
  refine ⟨rfl, rfl, by decide, by decide⟩

/-! ## Grain pool, scheduler and engine state

struct_grain (lines 554-562) keeps its C++ fields except the per-grain
envelope copy frames_gain_envelope: initialize_grain always copies the one
global table garray_frames_envelope into it unchanged, so the copy is
modelled by the global table itself (defined with the render model below).
uint32_t counters are Nats; the observable uint32 wrapping of the increment
and decrement of active_envelopes_grain and of the product in the envelope
index is made explicit through wrap32 and dec32.  The float grain gain (always
1.0f here) is a rational. -/

def kframes_envelope : Nat := 1024

def max_density_cloud_grain : Nat := 128

def wrap32 (n : Nat) : Nat := n % 4294967296

/-- Decrement of a uint32_t counter (wraps at zero). -/
def dec32 (n : Nat) : Nat := (n + 4294967295) % 4294967296

structure struct_grain where
  address_start_frame : Nat
  address_present_grain : Nat
  frames_grain : Nat
  gain_grain : ℚ
  status_callback_grain : Bool
  target_object : Int
deriving DecidableEq

/-- The mutable globals the grain scheduler and render callback read and
write: the grain pool of struct_process_grain (lines 585-593), the parsed
sequence state (lines 222-224) and the source playback position of
global_AudioFileData (lines 1142-1143). -/
structure EngineState where
  object_array_grains : List struct_grain
  frames_object_grain : Nat
  count_present_frame : Nat
  active_envelopes_grain : Nat
  g_grain_sequence : List Int
  g_sequence_position : Nat
  g_use_grain_hopping : Bool
  present_frame : Nat
  frames_total : Nat
deriving DecidableEq

/-- Start frame of a new grain (lines 1252-1259): present_frame plus the
drawn jitter in int64, clamped below by 0 and above by the uint32 value of
frames_total - 1 (the subtraction wraps when frames_total is 0, exactly as
the C++ uint32 subtraction does before the int64 cast). -/
def grain_start_frame (present_frame frames_total : Nat) (j : Int) : Nat :=
  let upper : Int := (((frames_total + 4294967295) % 4294967296 : Nat) : Int)
  let start_raw : Int := (present_frame : Int) + j
  let start_raw := if start_raw < 0 then 0 else start_raw
  let start_raw := if start_raw > upper then upper else start_raw
  start_raw.toNat

/-- Length of a new grain (lines 1262-1269): the float product
base_frames_grain * scale truncated by the uint32_t cast (floor for the
non-negative scales the program draws), raised to the 64-frame minimum, then
cut to whatever source remains when it would overrun the file. -/
def grain_frames_field (base : Nat) (s : ℚ) (start frames_total : Nat) : Nat :=
  let f := (Int.floor ((base : ℚ) * s)).toNat
  let f := if f < 64 then 64 else f
  if start + f > frames_total then frames_total - start else f

/-- The slot-claiming loop of function_process_grain (lines 1206-1215):
scan for the first inactive slot and overwrite it; none when every slot is
active. -/
def claim_first_slot (new_grain : struct_grain) :
    List struct_grain → Option (List struct_grain)
  | [] => none
  | g :: gs =>
    if !g.status_callback_grain then some (new_grain :: gs)
    else
      match claim_first_slot new_grain gs with
      | some gs2 => some (g :: gs2)
      | none => none

/-- initialize_grain (lines 1150-1179): fills the claimed slot and, when
grain hopping is on and the sequence non-empty, consumes the sequence entry
at the cursor and advances the cursor modulo the sequence length. -/
def initialize_grain (seq : List Int) (pos : Nat) (hop : Bool)
    (iaddress_start_frame iframes_grain : Nat) (igain_grain : ℚ) :
    struct_grain × Nat :=
  let hopping := hop ∧ seq ≠ []
  let target : Int := if hopping then seq.getD pos 0 else -2
  let pos2 : Nat := if hopping then (pos + 1) % seq.length else pos
  ({ address_start_frame := iaddress_start_frame,
     address_present_grain := 0,
     frames_grain := iframes_grain,
     gain_grain := igain_grain,
     status_callback_grain := true,
     target_object := target }, pos2)

/-- function_process_grain (lines 1199-1275) with the two random draws as
oracle inputs j (jitter, frames) and s (travel scale factor): refuse at the
concurrency limit 8, refuse with no free slot, otherwise claim the first
inactive slot, initialize it and count it. -/
def function_process_grain (st : EngineState) (j : Int) (s : ℚ) : EngineState :=
  if 8 ≤ st.active_envelopes_grain then st
  else
    let field_start_frame := grain_start_frame st.present_frame st.frames_total j
    let field_frames_grain :=
      grain_frames_field st.frames_object_grain s field_start_frame st.frames_total
    let ig := initialize_grain st.g_grain_sequence st.g_sequence_position
      st.g_use_grain_hopping field_start_frame field_frames_grain 1
    match claim_first_slot ig.1 st.object_array_grains with
    | none => st
    | some gs2 =>
      { st with object_array_grains := gs2,
                g_sequence_position := ig.2,
                active_envelopes_grain := wrap32 (st.active_envelopes_grain + 1) }

/-- The per-grain state effects of the render callback grain loop (lines
1383-1510): every active grain advances its playhead by
min(icount_frames, frames left) and, on reaching its length, goes inactive
and decrements the uint32 active counter. -/
def grains_advance_phase (F : Nat) :
    List struct_grain → Nat → List struct_grain × Nat
  | [], active => ([], active)
  | g :: gs, active =>
    if g.status_callback_grain then
      let frames_grain_process := min F (g.frames_grain - g.address_present_grain)
      let newpos := g.address_present_grain + frames_grain_process
      if g.frames_grain ≤ newpos then
        let rest := grains_advance_phase F gs (dec32 active)
        ({ g with address_present_grain := newpos,
                  status_callback_grain := false } :: rest.1, rest.2)
      else
        let rest := grains_advance_phase F gs active
        ({ g with address_present_grain := newpos } :: rest.1, rest.2)
    else
      let rest := grains_advance_phase F gs active
      (g :: rest.1, rest.2)

/-- The two kinds of events that touch the pool: a spawn attempt (one
function_process_grain call with its two draws) and the completion-and-
advance pass a render callback of F frames performs. -/
inductive PoolEvent where
  | spawn (j : Int) (s : ℚ)
  | advance (F : Nat)

def pool_step (st : EngineState) : PoolEvent → EngineState
  | PoolEvent.spawn j s => function_process_grain st j s
  | PoolEvent.advance F =>
    let r := grains_advance_phase F st.object_array_grains st.active_envelopes_grain
    { st with object_array_grains := r.1, active_envelopes_grain := r.2 }

def pool_run (st : EngineState) : List PoolEvent → EngineState
  | [] => st
  | e :: es => pool_run (pool_step st e) es

/-- The pool's counting invariant: the active counter equals the number of
active slots and stays within the concurrency limit. -/
def pool_invariant (st : EngineState) : Prop :=
  st.active_envelopes_grain =
    st.object_array_grains.countP (fun g => g.status_callback_grain) ∧
  st.active_envelopes_grain ≤ 8

theorem dec32_eq (a : Nat) (h1 : 1 ≤ a) (h2 : a ≤ 4294967295) : dec32 a = a - 1 := by
  unfold dec32
  omega

theorem wrap32_small (a : Nat) (h : a < 4294967296) : wrap32 a = a := by
  unfold wrap32
  omega

/-- Claiming a slot replaces one inactive grain with the active new one, so
the active-slot count rises by exactly one. -/
theorem claim_first_slot_countP (g2 : struct_grain) (hg2 : g2.status_callback_grain = true)
    (l l2 : List struct_grain) (h : claim_first_slot g2 l = some l2) :
    l2.countP (fun g => g.status_callback_grain) =
      l.countP (fun g => g.status_callback_grain) + 1 := by
  induction l generalizing l2 with
  | nil => simp [claim_first_slot] at h
  | cons g gs ih =>
    by_cases hst : g.status_callback_grain = true
    · cases hrec : claim_first_slot g2 gs with
      | none => simp [claim_first_slot, hst, hrec] at h
      | some gs2 =>
        have h2 : g :: gs2 = l2 := by simpa [claim_first_slot, hst, hrec] using h
        subst h2
        have := ih gs2 hrec
        simp [List.countP_cons, hst, this]
    · have h2 : g2 :: gs = l2 := by simpa [claim_first_slot, hst] using h
      subst h2
      simp [List.countP_cons, hst, hg2]

/-- Claiming a slot only overwrites an inactive grain: every active slot is
left in place at its index. -/
theorem claim_first_slot_preserves_active (g2 : struct_grain)
    (l l2 : List struct_grain) (h : claim_first_slot g2 l = some l2)
    (i : Nat) (g : struct_grain) (hget : l.get? i = some g)
    (hact : g.status_callback_grain = true) : l2.get? i = some g := by
  induction l generalizing l2 i with
  | nil => simp [claim_first_slot] at h
  | cons g0 gs ih =>
    by_cases hst : g0.status_callback_grain = true
    · cases hrec : claim_first_slot g2 gs with
      | none => simp [claim_first_slot, hst, hrec] at h
      | some gs2 =>
        have h2 : g0 :: gs2 = l2 := by simpa [claim_first_slot, hst, hrec] using h
        subst h2
        cases i with
        | zero => exact hget
        | succ i2 => exact ih gs2 hrec i2 hget
    · have h2 : g2 :: gs = l2 := by simpa [claim_first_slot, hst] using h
      subst h2
      cases i with
      | zero =>
        simp only [List.get?] at hget
        injection hget with hEq
        rw [← hEq] at hact
        exact absurd hact hst
      | succ i2 => exact hget

/-- A spawn attempt either leaves the whole state unchanged or claims one
slot under the limit: the pool invariant survives. -/
theorem function_process_grain_invariant (st : EngineState) (j : Int) (s : ℚ)
    (h : pool_invariant st) : pool_invariant (function_process_grain st j s) := by
  obtain ⟨hcount, hle⟩ := h
  unfold function_process_grain
  by_cases hlim : 8 ≤ st.active_envelopes_grain
  · simp only [hlim, if_true]
    exact ⟨hcount, hle⟩
  · simp only [hlim, if_false]
    cases hclaim : claim_first_slot
        (initialize_grain st.g_grain_sequence st.g_sequence_position
          st.g_use_grain_hopping
          (grain_start_frame st.present_frame st.frames_total j)
          (grain_frames_field st.frames_object_grain s
            (grain_start_frame st.present_frame st.frames_total j) st.frames_total) 1).1
        st.object_array_grains with
    | none => exact ⟨hcount, hle⟩
    | some gs2 =>
      have hnew : (initialize_grain st.g_grain_sequence st.g_sequence_position
          st.g_use_grain_hopping
          (grain_start_frame st.present_frame st.frames_total j)
          (grain_frames_field st.frames_object_grain s
            (grain_start_frame st.present_frame st.frames_total j) st.frames_total)
          1).1.status_callback_grain = true := rfl
      have hcnt2 := claim_first_slot_countP _ hnew _ _ hclaim
      have hwrap : wrap32 (st.active_envelopes_grain + 1) =
          st.active_envelopes_grain + 1 := wrap32_small _ (by omega)
      constructor
      · show wrap32 (st.active_envelopes_grain + 1) =
          gs2.countP (fun g => g.status_callback_grain)
        rw [hwrap, hcnt2, hcount]
      · show wrap32 (st.active_envelopes_grain + 1) ≤ 8
        rw [hwrap]
        omega

/-- The callback advance pass trades active-count decrements one for one
against slots going inactive. -/
theorem grains_advance_phase_count (F : Nat) (gs : List struct_grain) (active : Nat)
    (hc : gs.countP (fun g => g.status_callback_grain) ≤ active) (hle : active ≤ 8) :
    (grains_advance_phase F gs active).2 + gs.countP (fun g => g.status_callback_grain) =
      active + (grains_advance_phase F gs active).1.countP (fun g => g.status_callback_grain) ∧
    (grains_advance_phase F gs active).1.countP (fun g => g.status_callback_grain) ≤
      gs.countP (fun g => g.status_callback_grain) := by
  induction gs generalizing active with
  | nil => simp [grains_advance_phase]
  | cons g gs ih =>
    by_cases hst : g.status_callback_grain = true
    · have hcount : (g :: gs).countP (fun g => g.status_callback_grain) =
          gs.countP (fun g => g.status_callback_grain) + 1 := by
        simp [List.countP_cons, hst]
      rw [hcount] at hc ⊢
      by_cases hdone : g.frames_grain ≤
          g.address_present_grain + min F (g.frames_grain - g.address_present_grain)
      · have hdec : dec32 active = active - 1 := dec32_eq active (by omega) (by omega)
        obtain ⟨ih1, ih2⟩ := ih (active - 1) (by omega) (by omega)
        have hphase : grains_advance_phase F (g :: gs) active =
            (struct_grain.mk g.address_start_frame
                (g.address_present_grain + min F (g.frames_grain - g.address_present_grain))
                g.frames_grain g.gain_grain false g.target_object ::
              (grains_advance_phase F gs (active - 1)).1,
             (grains_advance_phase F gs (active - 1)).2) := by
          simp [grains_advance_phase, hst, hdone, hdec]
        rw [hphase]
        simp only [List.countP_cons]
        simp only [Bool.false_eq_true, if_false, decide_eq_true_eq]
        constructor
        · omega
        · omega
      · obtain ⟨ih1, ih2⟩ := ih active (by omega) hle
        have hphase : grains_advance_phase F (g :: gs) active =
            (struct_grain.mk g.address_start_frame
                (g.address_present_grain + min F (g.frames_grain - g.address_present_grain))
                g.frames_grain g.gain_grain g.status_callback_grain g.target_object ::
              (grains_advance_phase F gs active).1,
             (grains_advance_phase F gs active).2) := by
          simp [grains_advance_phase, hst, hdone]
        rw [hphase]
        simp only [List.countP_cons, hst]
        simp only [if_true, decide_eq_true_eq]
        constructor
        · omega
        · omega
    · have hcount : (g :: gs).countP (fun g => g.status_callback_grain) =
          gs.countP (fun g => g.status_callback_grain) := by
        simp [List.countP_cons, hst]
      rw [hcount] at hc ⊢
      obtain ⟨ih1, ih2⟩ := ih active hc hle
      have hstf : g.status_callback_grain = false := by
        revert hst
        cases g.status_callback_grain <;> simp
      have hphase : grains_advance_phase F (g :: gs) active =
          (g :: (grains_advance_phase F gs active).1,
           (grains_advance_phase F gs active).2) := by
        simp [grains_advance_phase, hstf]
      rw [hphase]
      simp only [List.countP_cons, hstf]
      simp only [Bool.false_eq_true, if_false, decide_eq_true_eq]
      constructor
      · omega
      · omega

theorem pool_step_invariant (st : EngineState) (e : PoolEvent)
    (h : pool_invariant st) : pool_invariant (pool_step st e) := by
  cases e with
  | spawn j s => exact function_process_grain_invariant st j s h
  | advance F =>
    obtain ⟨hcount, hle⟩ := h
    have hp := grains_advance_phase_count F st.object_array_grains
      st.active_envelopes_grain (le_of_eq hcount.symm) hle
    have hgr : (pool_step st (PoolEvent.advance F)).object_array_grains =
        (grains_advance_phase F st.object_array_grains st.active_envelopes_grain).1 := rfl
    have hac : (pool_step st (PoolEvent.advance F)).active_envelopes_grain =
        (grains_advance_phase F st.object_array_grains st.active_envelopes_grain).2 := rfl
    constructor
    · rw [hac, hgr]
      omega
    · rw [hac]
      omega

theorem pool_run_invariant (st : EngineState) (evs : List PoolEvent)
    (h : pool_invariant st) : pool_invariant (pool_run st evs) := by
  induction evs generalizing st with
  | nil => exact h
  | cons e es ih => exact ih (pool_step st e) (pool_step_invariant st e h)

/-- C3: from any state satisfying the counting invariant, no interleaving of
spawn attempts and callback advance passes ever pushes the active-grain
counter above the concurrency limit 8; a spawn attempt made at the limit
returns the state completely unchanged (no grain slot, no counter, no
sequence cursor — refused, not queued); and any spawn attempt that does
change the state was made strictly below the limit, i.e. after enough
completions had decremented the counter. -/
theorem C3_concurrency_limit :
    (∀ (st : EngineState), pool_invariant st → ∀ evs : List PoolEvent,
      (pool_run st evs).active_envelopes_grain ≤ 8) ∧
    (∀ (st : EngineState) (j : Int) (s : ℚ), 8 ≤ st.active_envelopes_grain →
      function_process_grain st j s = st) ∧
    (∀ (st : EngineState) (j : Int) (s : ℚ), function_process_grain st j s ≠ st →
      st.active_envelopes_grain < 8) := by
  refine ⟨?_, ?_, ?_⟩
  · intro st h evs
    exact (pool_run_invariant st evs h).2
  · intro st j s hlim
    unfold function_process_grain
    simp [hlim]
  · intro st j s hchange
    by_contra hge
    push_neg at hge
    apply hchange
    unfold function_process_grain
    simp [hge]

/-- C3 witness: a full 2-slot pool at the limit refuses a spawn unchanged,
and from an empty invariant-satisfying pool a burst of ten spawn attempts
still respects the limit. -/
theorem C3_concurrency_limit_witness :
    (8 ≤ (EngineState.mk
        [⟨0, 0, 64, 1, true, -2⟩, ⟨0, 0, 64, 1, true, -2⟩] 2048 0 8 [] 0 false 0 100).active_envelopes_grain ∧
      function_process_grain (EngineState.mk
        [⟨0, 0, 64, 1, true, -2⟩, ⟨0, 0, 64, 1, true, -2⟩] 2048 0 8 [] 0 false 0 100) 0 1 =
        EngineState.mk
        [⟨0, 0, 64, 1, true, -2⟩, ⟨0, 0, 64, 1, true, -2⟩] 2048 0 8 [] 0 false 0 100) ∧
    (pool_invariant (EngineState.mk [⟨0, 0, 64, 1, false, -2⟩] 2048 0 0 [] 0 false 0 100) ∧
      (pool_run (EngineState.mk [⟨0, 0, 64, 1, false, -2⟩] 2048 0 0 [] 0 false 0 100)
        [PoolEvent.spawn 0 1, PoolEvent.spawn 0 1, PoolEvent.spawn 0 1]).active_envelopes_grain ≤ 8) := by
  refine ⟨⟨by decide, C3_concurrency_limit.2.1 _ 0 1 (by decide)⟩,
    ⟨⟨by decide, by decide⟩, C3_concurrency_limit.1 _ ⟨by decide, by decide⟩ _⟩⟩

/-! ## Live sequence replacement and the sequence cursor (claim C9)

The control thread's h-key handler (lines 940-953, and the equivalent path
of the t-key handler) swaps in the freshly parsed sequence and resets the
cursor to 0 exactly when the cursor would be out of range of the new
sequence.  Spawns read the sequence at the cursor and advance it modulo the
length (initialize_grain, lines 1163-1171). -/

inductive ControlEvent where
  | spawn (j : Int) (s : ℚ)
  | replaceSequence (newseq : List Int)

/-- One control-visible step: a spawn attempt, or the live sequence
replacement g_grain_sequence = parse(input) followed by the conditional
cursor reset of lines 946-948. -/
def control_step (st : EngineState) : ControlEvent → EngineState
  | ControlEvent.spawn j s => function_process_grain st j s
  | ControlEvent.replaceSequence newseq =>
    { st with g_grain_sequence := newseq,
              g_sequence_position :=
                if newseq.length ≤ st.g_sequence_position then 0
                else st.g_sequence_position }

def control_run (st : EngineState) : List ControlEvent → EngineState
  | [] => st
  | e :: es => control_run (control_step st e) es

/-- The cursor invariant: a non-empty sequence keeps the cursor strictly
inside it. -/
def seq_invariant (st : EngineState) : Prop :=
  st.g_grain_sequence ≠ [] →
    st.g_sequence_position < st.g_grain_sequence.length

/-- A spawn attempt never touches the sequence, and advances the cursor
modulo the length when it consumes an entry. -/
theorem function_process_grain_seq (st : EngineState) (j : Int) (s : ℚ) :
    (function_process_grain st j s).g_grain_sequence = st.g_grain_sequence ∧
    ((function_process_grain st j s).g_sequence_position = st.g_sequence_position ∨
      (st.g_grain_sequence ≠ [] ∧
        (function_process_grain st j s).g_sequence_position =
          (st.g_sequence_position + 1) % st.g_grain_sequence.length)) := by
  unfold function_process_grain
  by_cases hlim : 8 ≤ st.active_envelopes_grain
  · simp [hlim]
  · simp only [hlim, if_false]
    cases hclaim : claim_first_slot
        (initialize_grain st.g_grain_sequence st.g_sequence_position
          st.g_use_grain_hopping
          (grain_start_frame st.present_frame st.frames_total j)
          (grain_frames_field st.frames_object_grain s
            (grain_start_frame st.present_frame st.frames_total j) st.frames_total) 1).1
        st.object_array_grains with
    | none => simp
    | some gs2 =>
      refine ⟨rfl, ?_⟩
      by_cases hhop : st.g_use_grain_hopping ∧ st.g_grain_sequence ≠ []
      · right
        exact ⟨hhop.2, by simp [initialize_grain, hhop]⟩
      · left
        simp [initialize_grain, hhop]

theorem control_step_seq_invariant (st : EngineState) (e : ControlEvent)
    (h : seq_invariant st) : seq_invariant (control_step st e) := by
  cases e with
  | spawn j s =>
    obtain ⟨hseq, hpos⟩ := function_process_grain_seq st j s
    intro hne
    rw [control_step] at hne ⊢
    rw [hseq] at hne ⊢
    rcases hpos with hsame | ⟨hne2, hmod⟩
    · rw [hsame]
      exact h hne
    · rw [hmod]
      exact Nat.mod_lt _ (List.length_pos.mpr hne)
  | replaceSequence newseq =>
    intro hne
    show (if newseq.length ≤ st.g_sequence_position then 0
          else st.g_sequence_position) < newseq.length
    have hpos : 0 < newseq.length := by
      have : (control_step st (ControlEvent.replaceSequence newseq)).g_grain_sequence
          = newseq := rfl
      rw [this] at hne
      exact List.length_pos.mpr hne
    by_cases hreset : newseq.length ≤ st.g_sequence_position
    · simp [hreset, hpos]
    · simp only [hreset, if_false]
      omega

theorem control_run_seq_invariant (st : EngineState) (evs : List ControlEvent)
    (h : seq_invariant st) : seq_invariant (control_run st evs) := by
  induction evs generalizing st with
  | nil => exact h
  | cons e es ih => exact ih (control_step st e) (control_step_seq_invariant st e h)

/-- C9: from any state satisfying the cursor invariant — the state right
after setup, which parses the sequence and zeroes the cursor, satisfies it —
every interleaving of spawns and live sequence replacements keeps the cursor
strictly below the sequence length whenever the sequence is non-empty, so
the unchecked read g_grain_sequence at g_sequence_position performed at
spawn time is in bounds; and a live replacement resets the cursor to 0
exactly when the cursor would be out of range of the new sequence. -/
theorem C9_sequence_cursor_in_bounds :
    (∀ (st : EngineState), seq_invariant st → ∀ evs : List ControlEvent,
      (control_run st evs).g_grain_sequence ≠ [] →
        (control_run st evs).g_sequence_position <
          (control_run st evs).g_grain_sequence.length) ∧
    (∀ (st : EngineState) (newseq : List Int),
      (newseq.length ≤ st.g_sequence_position →
        (control_step st (ControlEvent.replaceSequence newseq)).g_sequence_position = 0) ∧
      (st.g_sequence_position < newseq.length →
        (control_step st (ControlEvent.replaceSequence newseq)).g_sequence_position =
          st.g_sequence_position)) := by
  constructor
  · intro st h evs
    exact control_run_seq_invariant st evs h
  · intro st newseq
    constructor
    · intro hout
      show (if newseq.length ≤ st.g_sequence_position then 0
            else st.g_sequence_position) = 0
      simp [hout]
    · intro hin
      show (if newseq.length ≤ st.g_sequence_position then 0
            else st.g_sequence_position) = st.g_sequence_position
      have : ¬ newseq.length ≤ st.g_sequence_position := by omega
      simp [this]

/-- C9 witness: a hopping state with a 2-entry sequence and the cursor at 1
goes through a spawn (wrapping the cursor to 0), a live replacement by a
1-entry sequence (cursor in range, kept) and another spawn, staying in
bounds throughout; and a replacement by a shorter sequence from cursor 5
resets to 0. -/
theorem C9_sequence_cursor_witness :
    (seq_invariant (EngineState.mk [⟨0, 0, 64, 1, false, -2⟩] 2048 0 0 [4, 7] 1 true 0 100) ∧
      ((control_run (EngineState.mk [⟨0, 0, 64, 1, false, -2⟩] 2048 0 0 [4, 7] 1 true 0 100)
          [ControlEvent.spawn 0 1, ControlEvent.replaceSequence [9],
           ControlEvent.spawn 0 1]).g_grain_sequence ≠ [] →
        (control_run (EngineState.mk [⟨0, 0, 64, 1, false, -2⟩] 2048 0 0 [4, 7] 1 true 0 100)
          [ControlEvent.spawn 0 1, ControlEvent.replaceSequence [9],
           ControlEvent.spawn 0 1]).g_sequence_position <
          (control_run (EngineState.mk [⟨0, 0, 64, 1, false, -2⟩] 2048 0 0 [4, 7] 1 true 0 100)
            [ControlEvent.spawn 0 1, ControlEvent.replaceSequence [9],
             ControlEvent.spawn 0 1]).g_grain_sequence.length)) ∧
    (([9, 9].length ≤ (EngineState.mk [] 2048 0 0 [1, 2, 3, 4, 5, 6] 5 true 0 100).g_sequence_position) ∧
      (control_step (EngineState.mk [] 2048 0 0 [1, 2, 3, 4, 5, 6] 5 true 0 100)
        (ControlEvent.replaceSequence [9, 9])).g_sequence_position = 0) :=
  ⟨⟨fun hne => by decide,
    C9_sequence_cursor_in_bounds.1 _ (fun hne => by decide) _⟩,
   ⟨by decide,
    (C9_sequence_cursor_in_bounds.2 (EngineState.mk [] 2048 0 0 [1, 2, 3, 4, 5, 6] 5 true 0 100)
      [9, 9]).1 (by decide)⟩⟩

/-! ## Claim C5: grain start and length formulas

The C++ computes the length as static_cast of the float product
base_frames_grain * scale — truncation toward zero, not rounding.  At
base = 2048, scale = 4505/4096 the product 2252.5 is exactly representable
in single-precision float, so the rational model below agrees with the C++
float arithmetic at the counterexample input. -/

/-- The length formula in the words of the claim — round, not the code's
truncation — kept only to compare the claim against the code. -/
def spec_claim_grain_length (base : Nat) (s : ℚ) (start frames_total : Nat) : Nat :=
  let f := max 64 (round ((base : ℚ) * s)).toNat
  if start + f > frames_total then frames_total - start else f

/-- C5 counterexample: at base 2048, scale 4505/4096 (product 2252.5) the
code truncates to 2252 while the claim's round formula gives 2253. -/
theorem C5_round_vs_truncate_counterexample :
    grain_frames_field 2048 (4505 / 4096 : ℚ) 0 1000000 = 2252 ∧
    spec_claim_grain_length 2048 (4505 / 4096 : ℚ) 0 1000000 = 2253 ∧
    (2252 : Nat) ≠ 2253 := by
  have hfloor : Int.floor (((2048 : ℕ) : ℚ) * (4505 / 4096)) = 2252 := by
    rw [Int.floor_eq_iff]
    constructor
    · norm_num
    · norm_num
  have hround : round (((2048 : ℕ) : ℚ) * (4505 / 4096)) = 2253 := by
    rw [round_eq, Int.floor_eq_iff]
    constructor
    · norm_num
    · norm_num
  refine ⟨?_, ?_, by decide⟩
  · simp only [grain_frames_field, hfloor]
    norm_num
    decide
  · simp only [spec_claim_grain_length, hround]
    norm_num
    decide

/-- C5 amended: the start frame is clamp(present_frame + j, 0, total - 1)
exactly as claimed (the uint32 wrap in the code's upper bound collapses for
any real file, 1 ≤ total ≤ uint32 max); the length is
max(64, truncate(grainLength * s)) — truncation, not rounding — cut to the
remaining source, equivalently min with total - start; and the spawned
range never overruns the source. -/
theorem C5_spawn_start_length (present frames_total : Nat) (j : Int)
    (base : Nat) (s : ℚ) (h1 : 1 ≤ frames_total)
    (h2 : frames_total ≤ 4294967295) (_hs : 0 ≤ s) :
    (grain_start_frame present frames_total j =
      (max 0 (min ((present : Int) + j) ((frames_total : Int) - 1))).toNat) ∧
    (grain_start_frame present frames_total j < frames_total) ∧
    (grain_frames_field base s (grain_start_frame present frames_total j) frames_total =
      min (max 64 (Int.floor ((base : ℚ) * s)).toNat)
        (frames_total - grain_start_frame present frames_total j)) ∧
    (grain_start_frame present frames_total j +
      grain_frames_field base s (grain_start_frame present frames_total j) frames_total ≤
        frames_total) := by
  have hupper : (((frames_total + 4294967295) % 4294967296 : Nat) : Int) =
      (frames_total : Int) - 1 := by
    have : (frames_total + 4294967295) % 4294967296 = frames_total - 1 := by omega
    rw [this]
    omega
  have hstart : grain_start_frame present frames_total j =
      (max 0 (min ((present : Int) + j) ((frames_total : Int) - 1))).toNat := by
    unfold grain_start_frame
    rw [hupper]
    by_cases hneg : (present : Int) + j < 0
    · have hmin : min ((present : Int) + j) ((frames_total : Int) - 1) =
          (present : Int) + j := by
        apply min_eq_left
        omega
      rw [hmin]
      simp only [hneg, if_true]
      have : max 0 ((present : Int) + j) = 0 := by omega
      rw [this]
      have : ¬ ((0 : Int) > (frames_total : Int) - 1) := by omega
      simp [this]
    · simp only [hneg, if_false]
      by_cases hover : (present : Int) + j > (frames_total : Int) - 1
      · simp only [hover, if_true]
        have : min ((present : Int) + j) ((frames_total : Int) - 1) =
            (frames_total : Int) - 1 := by omega
        rw [this]
        have : max 0 ((frames_total : Int) - 1) = (frames_total : Int) - 1 := by omega
        rw [this]
      · simp only [hover, if_false]
        have : min ((present : Int) + j) ((frames_total : Int) - 1) =
            (present : Int) + j := by omega
        rw [this]
        have : max 0 ((present : Int) + j) = (present : Int) + j := by omega
        rw [this]
  have hlt : grain_start_frame present frames_total j < frames_total := by
    rw [hstart]
    have hb : max 0 (min ((present : Int) + j) ((frames_total : Int) - 1)) ≤
        (frames_total : Int) - 1 := by
      have : (0 : Int) ≤ (frames_total : Int) - 1 := by omega
      omega
    omega
  refine ⟨hstart, hlt, ?_, ?_⟩
  · simp only [grain_frames_field]
    set start := grain_start_frame present frames_total j with hstartdef
    set f0 := (Int.floor ((base : ℚ) * s)).toNat with hf0
    by_cases hsm : f0 < 64
    · simp only [hsm, if_true]
      by_cases hov : start + 64 > frames_total
      · simp only [hov, if_true]
        omega
      · simp only [hov, if_false]
        omega
    · simp only [hsm, if_false]
      by_cases hov : start + f0 > frames_total
      · simp only [hov, if_true]
        omega
      · simp only [hov, if_false]
        omega
  · simp only [grain_frames_field]
    set start := grain_start_frame present frames_total j with hstartdef
    set f0 := (Int.floor ((base : ℚ) * s)).toNat with hf0
    by_cases hov : start + (if f0 < 64 then 64 else f0) > frames_total
    · simp only [hov, if_true]
      omega
    · simp only [hov, if_false]
      by_cases hsm : f0 < 64
      · simp only [hsm, if_true] at hov ⊢
        omega
      · simp only [hsm, if_false] at hov ⊢
        omega

/-- C5 witness: the amended start and length conclusions at present 100,
total 1000, jitter -150 (clamped to 0), base 2048, scale 4505/4096. -/
theorem C5_spawn_start_length_witness :
    ((1 : Nat) ≤ 1000 ∧ (1000 : Nat) ≤ 4294967295 ∧ (0 : ℚ) ≤ 4505 / 4096) ∧
    (grain_start_frame 100 1000 (-150) =
      (max 0 (min ((100 : Int) + (-150)) ((1000 : Int) - 1))).toNat ∧
     grain_start_frame 100 1000 (-150) < 1000 ∧
     grain_frames_field 2048 (4505 / 4096 : ℚ) (grain_start_frame 100 1000 (-150)) 1000 =
       min (max 64 (Int.floor ((2048 : ℚ) * (4505 / 4096))).toNat)
         (1000 - grain_start_frame 100 1000 (-150)) ∧
     grain_start_frame 100 1000 (-150) +
       grain_frames_field 2048 (4505 / 4096 : ℚ) (grain_start_frame 100 1000 (-150)) 1000 ≤ 1000) :=
  ⟨⟨by decide, by decide, by norm_num⟩,
    C5_spawn_start_length 100 1000 (-150) 2048 (4505 / 4096)
      (by decide) (by decide) (by norm_num)⟩

/-! ## Claim C10: the envelope index is always in bounds -/

/-- The envelope index of lines 1413-1415: uint32 product of the in-grain
frame position with kframes_envelope - 1, divided by the grain length, then
clamped to the last table entry. -/
def env_idx (address_present_grain count_frame_process frames_grain : Nat) : Nat :=
  let e := wrap32 (wrap32 (address_present_grain + count_frame_process) *
    (kframes_envelope - 1)) / frames_grain
  if kframes_envelope ≤ e then kframes_envelope - 1 else e

/-- C10: for every playhead, frame offset and positive grain length — the
spawn path never creates a zero-length grain, as the second conjunct shows
for every scale and in-range start — the clamped envelope index stays below
kframes_envelope = 1024, so the table access is in bounds even for grains
shorter than 64 frames or longer than the table. -/
theorem C10_envelope_index_in_bounds :
    (∀ address_present_grain count_frame_process frames_grain : Nat,
      0 < frames_grain →
      env_idx address_present_grain count_frame_process frames_grain < 1024) ∧
    (∀ (base : Nat) (s : ℚ) (start frames_total : Nat),
      start < frames_total →
      0 < grain_frames_field base s start frames_total) := by
  constructor
  · intro p f n hn
    unfold env_idx
    by_cases hclamp : kframes_envelope ≤
        wrap32 (wrap32 (p + f) * (kframes_envelope - 1)) / n
    · simp only [hclamp, if_true]
      decide
    · simp only [hclamp, if_false]
      unfold kframes_envelope at hclamp ⊢
      omega
  · intro base s start frames_total hlt
    unfold grain_frames_field
    by_cases hov : start + (if (Int.floor ((base : ℚ) * s)).toNat < 64 then 64
        else (Int.floor ((base : ℚ) * s)).toNat) > frames_total
    · simp only [hov, if_true]
      omega
    · simp only [hov, if_false]
      by_cases hsm : (Int.floor ((base : ℚ) * s)).toNat < 64
      · simp only [hsm, if_true]
        omega
      · simp only [hsm, if_false]
        omega

/-- C10 witness: a 3-frame grain read past its envelope scaling and a
spawn-length instance, hypotheses discharged concretely. -/
theorem C10_envelope_index_witness :
    ((0 : Nat) < 3 ∧ env_idx 2 5 3 < 1024) ∧
    ((7 : Nat) < 10 ∧ 0 < grain_frames_field 2048 (1 : ℚ) 7 10) :=
  ⟨⟨by decide, C10_envelope_index_in_bounds.1 2 5 3 (by decide)⟩,
   ⟨by decide, C10_envelope_index_in_bounds.2 2048 1 7 10 (by decide)⟩⟩

/-! ## Render callback (function_callback_audio, lines 1310-1572)

The state effects (counter, spawn, cursor advance, grain advance) are the
computable functions above; the audio written into the mix is modelled as
the list of accumulation events the grain loop performs, each carrying the
real value added at a (channel, frame) cell.  The envelope table, the source
samples and the envelope RMS enter as parameters of type real.  kDryGain is
0.0f in this build (line 1344), so the wet/dry base layer only writes
zeros; the mix events below are the grain accumulations of lines 1419-1499
(the sine-test branch is driven by the testing flag and writes no grain
events). -/

def kDryGain : ℝ := 0

def kWetGain : ℝ := 1

def kTargetRMS : ℝ := (0.2 : ℝ)

/-- g_channel_offset (line 210) stays 0 in this build: setupChannelShift,
the only writer of a non-zero value, is commented out. -/
def g_channel_offset : Nat := 0

/-- The target-to-channel chain of lines 1455-1473: the original-sequence
mapping first, then the legacy aliases 1, 2, 3, then the direct numeric
fallback target - 1 converted to UInt32 (an out-of-int-range or negative
value wraps mod 2^32 as the C++ unsigned conversion does). -/
def resolve_target_ch (target_object : Int) (orig0 orig1 orig2 a0 a1 a2 : Nat) : Nat :=
  if target_object = (orig0 : Int) + 1 then a0
  else if target_object = (orig1 : Int) + 1 then a1
  else if target_object = (orig2 : Int) + 1 then a2
  else if target_object = 1 then a0
  else if target_object = 2 then a1
  else if target_object = 3 then a2
  else ((target_object - 1) % 4294967296).toNat

/-- interval_start_frames (line 1333): uint32 truncation of the float
product grain length times density multiplier. -/
def interval_start_frames (frames_object_grain : Nat) (m : ℚ) : Nat :=
  (Int.floor ((frames_object_grain : ℚ) * m)).toNat

/-- One accumulation into the mix buffer: value is added at (channel, frame). -/
structure MixEvent where
  channel : Nat
  frame : Nat
  value : ℝ

/-- The per-grain gain of lines 1389-1395: target RMS over envelope RMS
times the square root of the overlap factor, times the grain's own gain. -/
noncomputable def grain_base_gain_of (g : struct_grain) (interval : Nat) (rms : ℝ) : ℝ :=
  let rho : ℝ := (g.frames_grain : ℝ) / (interval : ℝ)
  let N_eff : ℝ := max 1 rho
  let gain_norm : ℝ := kTargetRMS / (rms * Real.sqrt N_eff)
  (g.gain_grain : ℝ) * gain_norm

/-- The mix accumulations one frame of the grain loop performs (lines
1399-1501): silence when the source read would run past the file, a write
to every output channel for broadcast target -2, nothing for silence target
-1, and for an object target one write at the resolved channel when it is
inside the device, nothing (skipped, no error) when it is not. -/
noncomputable def grain_frame_events (g : struct_grain) (count_frame_process : Nat)
    (frames_total channels_file outChannels : Nat)
    (orig0 orig1 orig2 a0 a1 a2 : Nat)
    (samples : Nat → Nat → ℝ) (grain_base_gain : ℝ) (envTable : Nat → ℝ) :
    List MixEvent :=
  let frame_grain_audio := g.address_start_frame + g.address_present_grain +
    count_frame_process
  if frames_total ≤ frame_grain_audio then []
  else
    let frame_env := envTable (env_idx g.address_present_grain count_frame_process
      g.frames_grain)
    if g.target_object = -1 then []
    else if g.target_object = -2 then
      (List.range outChannels).map (fun process_ch =>
        { channel := process_ch, frame := count_frame_process,
          value := kWetGain * (samples (process_ch % channels_file) frame_grain_audio *
            (frame_env * grain_base_gain)) })
    else
      let target_ch := resolve_target_ch g.target_object orig0 orig1 orig2 a0 a1 a2
      let final_target_ch := target_ch + g_channel_offset
      if final_target_ch < outChannels then
        [{ channel := final_target_ch, frame := count_frame_process,
           value := kWetGain * (samples (target_ch % channels_file) frame_grain_audio *
             (frame_env * grain_base_gain)) }]
      else []

/-- All accumulations one grain performs during a callback of F frames. -/
noncomputable def grain_events (g : struct_grain)
    (F frames_total channels_file outChannels interval : Nat)
    (orig0 orig1 orig2 a0 a1 a2 : Nat)
    (samples : Nat → Nat → ℝ) (rms : ℝ) (envTable : Nat → ℝ) : List MixEvent :=
  if g.status_callback_grain then
    (List.range (min F (g.frames_grain - g.address_present_grain))).flatMap
      (fun f => grain_frame_events g f frames_total channels_file outChannels
        orig0 orig1 orig2 a0 a1 a2 samples
        (grain_base_gain_of g interval rms) envTable)
  else []

/-- All accumulations of the whole grain loop, grain by grain in pool
order. -/
noncomputable def grains_events (gs : List struct_grain)
    (F frames_total channels_file outChannels interval : Nat)
    (orig0 orig1 orig2 a0 a1 a2 : Nat)
    (samples : Nat → Nat → ℝ) (rms : ℝ) (envTable : Nat → ℝ) : List MixEvent :=
  match gs with
  | [] => []
  | g :: rest =>
    grain_events g F frames_total channels_file outChannels interval
        orig0 orig1 orig2 a0 a1 a2 samples rms envTable ++
      grains_events rest F frames_total channels_file outChannels interval
        orig0 orig1 orig2 a0 a1 a2 samples rms envTable

/-- The render callback: counter update and spawn decision (lines
1325-1338), dry-layer cursor advance clamped at the end of the source
(lines 1354-1377, present_frame = min(start + F, total), no looping), and
the grain loop guarded by g_status_audio_playback and
callback_start_fr < total_fr (line 1382) — its state effects through
grains_advance_phase and its accumulations as the event list. -/
noncomputable def function_callback_audio (st : EngineState) (icount_frames : Nat)
    (j : Int) (s : ℚ) (m : ℚ) (playing testing : Bool)
    (channels_file outChannels : Nat) (orig0 orig1 orig2 a0 a1 a2 : Nat)
    (samples : Nat → Nat → ℝ) (rms : ℝ) (envTable : Nat → ℝ) :
    EngineState × List MixEvent :=
  let st1 := { st with count_present_frame := wrap32 (st.count_present_frame + icount_frames) }
  let interval := interval_start_frames st1.frames_object_grain m
  let st2 := if interval ≤ st1.count_present_frame
    then { function_process_grain st1 j s with count_present_frame := 0 }
    else st1
  let callback_start_fr := st2.present_frame
  let st3 := if testing = false ∧ playing = true
    then { st2 with present_frame := min (callback_start_fr + icount_frames) st2.frames_total }
    else st2
  if playing = true ∧ callback_start_fr < st3.frames_total then
    let r := grains_advance_phase icount_frames st3.object_array_grains
      st3.active_envelopes_grain
    (({ st3 with object_array_grains := r.1, active_envelopes_grain := r.2 } : EngineState),
      grains_events st3.object_array_grains icount_frames st3.frames_total
        channels_file outChannels interval orig0 orig1 orig2 a0 a1 a2 samples rms envTable)
  else (st3, [])

/-- A spawn attempt never moves the playback cursor, the file length, the
grain-length parameter or the trigger counter. -/
theorem function_process_grain_preserves (st : EngineState) (j : Int) (s : ℚ) :
    (function_process_grain st j s).present_frame = st.present_frame ∧
    (function_process_grain st j s).frames_total = st.frames_total := by
  unfold function_process_grain
  by_cases hlim : 8 ≤ st.active_envelopes_grain
  · simp [hlim]
  · simp only [hlim, if_false]
    cases hclaim : claim_first_slot
        (initialize_grain st.g_grain_sequence st.g_sequence_position
          st.g_use_grain_hopping
          (grain_start_frame st.present_frame st.frames_total j)
          (grain_frames_field st.frames_object_grain s
            (grain_start_frame st.present_frame st.frames_total j) st.frames_total) 1).1
        st.object_array_grains with
    | none => exact ⟨rfl, rfl⟩
    | some gs2 => exact ⟨rfl, rfl⟩

/-- A spawn attempt never touches a slot that already holds an active grain. -/
theorem function_process_grain_preserves_slots (st : EngineState) (j : Int) (s : ℚ)
    (i : Nat) (g : struct_grain) (hget : st.object_array_grains.get? i = some g)
    (hact : g.status_callback_grain = true) :
    (function_process_grain st j s).object_array_grains.get? i = some g := by
  unfold function_process_grain
  by_cases hlim : 8 ≤ st.active_envelopes_grain
  · rw [if_pos hlim]
    exact hget
  · simp only [hlim, if_false]
    cases hclaim : claim_first_slot
        (initialize_grain st.g_grain_sequence st.g_sequence_position
          st.g_use_grain_hopping
          (grain_start_frame st.present_frame st.frames_total j)
          (grain_frames_field st.frames_object_grain s
            (grain_start_frame st.present_frame st.frames_total j) st.frames_total) 1).1
        st.object_array_grains with
    | none => exact hget
    | some gs2 =>
      exact claim_first_slot_preserves_active _ _ _ hclaim i g hget hact

/-- C2 amended: in a playing, non-test callback the global playback cursor
advances by the frame count and is clamped to the total source length — it
never loops — but once the cursor has reached the end of the source the
grain loop is skipped entirely: grains that were active at entry are frozen
in place (same slot, same playhead, still flagged active, never completing)
and contribute no mix events in that and every later callback. -/
theorem C2_cursor_clamp_frozen_grains :
    (∀ (st : EngineState) (F : Nat) (j : Int) (s m : ℚ)
        (cf oc o0 o1 o2 a0 a1 a2 : Nat) (samples : Nat → Nat → ℝ) (rms : ℝ)
        (env : Nat → ℝ),
      (function_callback_audio st F j s m true false cf oc o0 o1 o2 a0 a1 a2
        samples rms env).1.present_frame = min (st.present_frame + F) st.frames_total) ∧
    (∀ (st : EngineState) (F : Nat) (j : Int) (s m : ℚ)
        (cf oc o0 o1 o2 a0 a1 a2 : Nat) (samples : Nat → Nat → ℝ) (rms : ℝ)
        (env : Nat → ℝ),
      st.frames_total ≤ st.present_frame →
      (function_callback_audio st F j s m true false cf oc o0 o1 o2 a0 a1 a2
        samples rms env).2 = [] ∧
      (∀ (i : Nat) (g : struct_grain), st.object_array_grains.get? i = some g →
        g.status_callback_grain = true →
        (function_callback_audio st F j s m true false cf oc o0 o1 o2 a0 a1 a2
          samples rms env).1.object_array_grains.get? i = some g)) := by
  constructor
  · intro st F j s m cf oc o0 o1 o2 a0 a1 a2 samples rms env
    unfold function_callback_audio
    by_cases hspawn : interval_start_frames st.frames_object_grain m ≤
        wrap32 (st.count_present_frame + F)
    · simp only [hspawn, if_true]
      have hp := function_process_grain_preserves
        { st with count_present_frame := wrap32 (st.count_present_frame + F) } j s
      simp only [hp.1, hp.2]
      by_cases hguard : st.present_frame < st.frames_total
      · simp [hguard]
      · simp [hguard]
    · simp only [hspawn, if_false]
      by_cases hguard : st.present_frame < st.frames_total
      · simp [hguard]
      · simp [hguard]
  · intro st F j s m cf oc o0 o1 o2 a0 a1 a2 samples rms env hend
    have hguard : ¬ st.present_frame < st.frames_total := by omega
    constructor
    · unfold function_callback_audio
      by_cases hspawn : interval_start_frames st.frames_object_grain m ≤
          wrap32 (st.count_present_frame + F)
      · have hp := function_process_grain_preserves
          { st with count_present_frame := wrap32 (st.count_present_frame + F) } j s
        simp only [hspawn, if_true]
        simp [hp.1, hp.2, hguard]
      · simp only [hspawn, if_false]
        simp [hguard]
    · intro i g hget hact
      unfold function_callback_audio
      by_cases hspawn : interval_start_frames st.frames_object_grain m ≤
          wrap32 (st.count_present_frame + F)
      · have hp := function_process_grain_preserves
          { st with count_present_frame := wrap32 (st.count_present_frame + F) } j s
        have hslots := function_process_grain_preserves_slots
          { st with count_present_frame := wrap32 (st.count_present_frame + F) } j s i g
          hget hact
        simp only [hspawn, if_true]
        simp [hp.1, hp.2, hguard]
        simpa using hslots
      · simp only [hspawn, if_false]
        simp [hguard]
        simpa using hget

/-- C2 counterexample: a callback entered with the cursor already at the end
of the source (present_frame = frames_total = 100) and one active mid-flight
grain (playhead 5 of 20) produces no mix events at all and leaves the grain
slot byte-for-byte unchanged — the grain neither plays nor completes —
contradicting the claim that grains already active keep playing to
completion and keep contributing to the mix in subsequent callbacks. -/
theorem C2_frozen_grain_counterexample :
    (function_callback_audio
      (EngineState.mk [⟨90, 5, 20, 1, true, -2⟩] 2048 0 1 [] 0 false 100 100)
      10 0 1 1 true false 1 2 0 1 2 0 1 2 (fun _ _ => 0) 1 (fun _ => 0)).2 = [] ∧
    (function_callback_audio
      (EngineState.mk [⟨90, 5, 20, 1, true, -2⟩] 2048 0 1 [] 0 false 100 100)
      10 0 1 1 true false 1 2 0 1 2 0 1 2 (fun _ _ => 0) 1 (fun _ => 0)).1.object_array_grains =
      [⟨90, 5, 20, 1, true, -2⟩] ∧
    (EngineState.mk [⟨90, 5, 20, 1, true, -2⟩] 2048 0 1 [] 0 false 100 100).present_frame =
      (EngineState.mk [⟨90, 5, 20, 1, true, -2⟩] 2048 0 1 [] 0 false 100 100).frames_total := by
  have hint : interval_start_frames 2048 (1 : ℚ) = 2048 := by
    unfold interval_start_frames
    norm_num
    decide
  refine ⟨?_, ?_, rfl⟩
  · unfold function_callback_audio
    simp [hint, wrap32]
  · unfold function_callback_audio
    simp [hint, wrap32]

/-- C2 witness: the amended frozen-grain conclusion applied at the same
end-of-source state, the cursor hypothesis discharged concretely. -/
theorem C2_cursor_clamp_witness :
    ((EngineState.mk [⟨90, 5, 20, 1, true, -2⟩] 2048 0 1 [] 0 false 100 100).frames_total ≤
      (EngineState.mk [⟨90, 5, 20, 1, true, -2⟩] 2048 0 1 [] 0 false 100 100).present_frame) ∧
    ((function_callback_audio
        (EngineState.mk [⟨90, 5, 20, 1, true, -2⟩] 2048 0 1 [] 0 false 100 100)
        10 0 1 1 true false 1 2 0 1 2 0 1 2 (fun _ _ => 0) 1 (fun _ => 0)).2 = [] ∧
      (∀ (i : Nat) (g : struct_grain),
        (EngineState.mk [⟨90, 5, 20, 1, true, -2⟩] 2048 0 1 [] 0 false 100 100).object_array_grains.get? i
          = some g →
        g.status_callback_grain = true →
        (function_callback_audio
          (EngineState.mk [⟨90, 5, 20, 1, true, -2⟩] 2048 0 1 [] 0 false 100 100)
          10 0 1 1 true false 1 2 0 1 2 0 1 2 (fun _ _ => 0) 1
          (fun _ => 0)).1.object_array_grains.get? i = some g)) :=
  ⟨by decide,
    C2_cursor_clamp_frozen_grains.2
      (EngineState.mk [⟨90, 5, 20, 1, true, -2⟩] 2048 0 1 [] 0 false 100 100)
      10 0 1 1 1 2 0 1 2 0 1 2 (fun _ _ => 0) 1 (fun _ => 0) (by decide)⟩

/-- C6: a positive grain target that matches neither the original-sequence
mapping ids (orig + 1) nor the legacy aliases 1, 2, 3 resolves to the direct
numeric channel target - 1; and whenever a grain's resolved (offset) channel
falls outside [0, outChannels), the grain loop adds nothing for that frame —
no event, no error, the model is total — while the events of every other
grain in the same callback are exactly what they would have been without
that grain. -/
theorem C6_fallback_resolution_and_skip :
    (∀ (t : Int) (o0 o1 o2 a0 a1 a2 : Nat),
      0 < t → t ≤ 2147483647 →
      t ≠ (o0 : Int) + 1 → t ≠ (o1 : Int) + 1 → t ≠ (o2 : Int) + 1 →
      t ≠ 1 → t ≠ 2 → t ≠ 3 →
      resolve_target_ch t o0 o1 o2 a0 a1 a2 = (t - 1).toNat) ∧
    (∀ (g : struct_grain) (f frames_total channels_file outChannels : Nat)
        (o0 o1 o2 a0 a1 a2 : Nat) (samples : Nat → Nat → ℝ) (gbg : ℝ)
        (envTable : Nat → ℝ),
      g.target_object ≠ -1 → g.target_object ≠ -2 →
      outChannels ≤ resolve_target_ch g.target_object o0 o1 o2 a0 a1 a2 +
        g_channel_offset →
      grain_frame_events g f frames_total channels_file outChannels
        o0 o1 o2 a0 a1 a2 samples gbg envTable = []) ∧
    (∀ (g : struct_grain) (gs : List struct_grain)
        (F frames_total channels_file outChannels interval : Nat)
        (o0 o1 o2 a0 a1 a2 : Nat) (samples : Nat → Nat → ℝ) (rms : ℝ)
        (envTable : Nat → ℝ),
      g.target_object ≠ -1 → g.target_object ≠ -2 →
      outChannels ≤ resolve_target_ch g.target_object o0 o1 o2 a0 a1 a2 +
        g_channel_offset →
      grains_events (g :: gs) F frames_total channels_file outChannels interval
          o0 o1 o2 a0 a1 a2 samples rms envTable =
        grains_events gs F frames_total channels_file outChannels interval
          o0 o1 o2 a0 a1 a2 samples rms envTable) := by
  have hframe : ∀ (g : struct_grain) (f frames_total channels_file outChannels : Nat)
      (o0 o1 o2 a0 a1 a2 : Nat) (samples : Nat → Nat → ℝ) (gbg : ℝ)
      (envTable : Nat → ℝ),
      g.target_object ≠ -1 → g.target_object ≠ -2 →
      outChannels ≤ resolve_target_ch g.target_object o0 o1 o2 a0 a1 a2 +
        g_channel_offset →
      grain_frame_events g f frames_total channels_file outChannels
        o0 o1 o2 a0 a1 a2 samples gbg envTable = [] := by
    intro g f frames_total channels_file outChannels o0 o1 o2 a0 a1 a2
      samples gbg envTable h1 h2 hout
    unfold grain_frame_events
    by_cases hread : frames_total ≤ g.address_start_frame + g.address_present_grain + f
    · simp [hread]
    · have hnotin : ¬ (resolve_target_ch g.target_object o0 o1 o2 a0 a1 a2 +
          g_channel_offset < outChannels) := by omega
      simp [hread, h1, h2, hnotin]
  refine ⟨?_, hframe, ?_⟩
  · intro t o0 o1 o2 a0 a1 a2 hpos hrange hn0 hn1 hn2 hl1 hl2 hl3
    unfold resolve_target_ch
    simp only [hn0, hn1, hn2, hl1, hl2, hl3, if_false]
    have hmod : (t - 1) % 4294967296 = t - 1 :=
      Int.emod_eq_of_lt (by omega) (by omega)
    rw [hmod]
  · intro g gs F frames_total channels_file outChannels interval
      o0 o1 o2 a0 a1 a2 samples rms envTable h1 h2 hout
    show grain_events g F frames_total channels_file outChannels interval
        o0 o1 o2 a0 a1 a2 samples rms envTable ++
      grains_events gs F frames_total channels_file outChannels interval
        o0 o1 o2 a0 a1 a2 samples rms envTable =
      grains_events gs F frames_total channels_file outChannels interval
        o0 o1 o2 a0 a1 a2 samples rms envTable
    have hg : grain_events g F frames_total channels_file outChannels interval
        o0 o1 o2 a0 a1 a2 samples rms envTable = [] := by
      unfold grain_events
      by_cases hst : g.status_callback_grain = true
      · simp only [hst, if_true]
        apply List.flatMap_eq_nil_iff.mpr
        intro f hf
        exact hframe g f frames_total channels_file outChannels o0 o1 o2 a0 a1 a2
          samples _ envTable h1 h2 hout
      · simp [hst]
    rw [hg]
    rfl

/-- C6 witness: target id 9 with the default original mapping resolves to
channel 8, which a 6-channel device rejects: that grain adds nothing while a
broadcast grain next to it keeps its events. -/
theorem C6_fallback_resolution_witness :
    ((0 : Int) < 9 ∧ (9 : Int) ≤ 2147483647 ∧ (9 : Int) ≠ (0 : Nat) + 1 ∧
      (9 : Int) ≠ (1 : Nat) + 1 ∧ (9 : Int) ≠ (2 : Nat) + 1 ∧
      (9 : Int) ≠ 1 ∧ (9 : Int) ≠ 2 ∧ (9 : Int) ≠ 3 ∧
      resolve_target_ch 9 0 1 2 0 1 2 = ((9 : Int) - 1).toNat) ∧
    ((⟨0, 0, 30, 1, true, 9⟩ : struct_grain).target_object ≠ -1 ∧
      (⟨0, 0, 30, 1, true, 9⟩ : struct_grain).target_object ≠ -2 ∧
      6 ≤ resolve_target_ch (⟨0, 0, 30, 1, true, 9⟩ : struct_grain).target_object
        0 1 2 0 1 2 + g_channel_offset ∧
      grains_events [⟨0, 0, 30, 1, true, 9⟩, ⟨0, 0, 30, 1, true, -2⟩] 16 1000 2 6 1024
          0 1 2 0 1 2 (fun _ _ => 0) 1 (fun _ => 0) =
        grains_events [⟨0, 0, 30, 1, true, -2⟩] 16 1000 2 6 1024
          0 1 2 0 1 2 (fun _ _ => 0) 1 (fun _ => 0)) :=
  ⟨⟨by decide, by decide, by decide, by decide, by decide, by decide, by decide, by decide,
    C6_fallback_resolution_and_skip.1 9 0 1 2 0 1 2 (by decide) (by decide)
      (by decide) (by decide) (by decide) (by decide) (by decide) (by decide)⟩,
   ⟨by decide, by decide, by decide,
    C6_fallback_resolution_and_skip.2.2 ⟨0, 0, 30, 1, true, 9⟩ [⟨0, 0, 30, 1, true, -2⟩]
      16 1000 2 6 1024 0 1 2 0 1 2 (fun _ _ => 0) 1 (fun _ => 0)
      (by decide) (by decide) (by decide)⟩⟩

/-! ## Envelope table (function_shape_envelope, lines 1090-1111)

The table entries and the RMS accumulated from them, in exact real
arithmetic: w(i) = 0.5 - 0.5 cos(2 pi i / (N - 1)) over i < N = 1024, and
rms = sqrt(sum of squares / N). -/

noncomputable def garray_frames_envelope (count_frame_envelope : Nat) : ℝ :=
  0.5 - 0.5 * Real.cos (2 * Real.pi * (count_frame_envelope : ℝ) /
    ((kframes_envelope : ℝ) - 1))

noncomputable def g_envelope_rms : ℝ :=
  Real.sqrt ((Finset.sum (Finset.range kframes_envelope)
    (fun i => garray_frames_envelope i ^ 2)) / (kframes_envelope : ℝ))

/-- C7: every table entry is the Hann value 0.5 - 0.5 cos(2 pi i / (N-1))
with N = 1024; the table is symmetric, w(i) = w(N-1-i), exactly (so in
particular within any floating tolerance); the two endpoints are exactly 0;
and the stored RMS is sqrt of the mean of the squared entries. -/
theorem C7_envelope_table_properties :
    (∀ i : Nat, i < 1024 →
      garray_frames_envelope i =
        0.5 - 0.5 * Real.cos (2 * Real.pi * (i : ℝ) / 1023)) ∧
    (∀ i : Nat, i < 1024 →
      garray_frames_envelope i = garray_frames_envelope (1023 - i)) ∧
    garray_frames_envelope 0 = 0 ∧
    garray_frames_envelope 1023 = 0 ∧
    g_envelope_rms = Real.sqrt ((Finset.sum (Finset.range 1024)
      (fun i => garray_frames_envelope i ^ 2)) / 1024) := by
  have hN : ((kframes_envelope : ℝ) - 1) = 1023 := by
    norm_num [kframes_envelope]
  have hval : ∀ i : Nat, garray_frames_envelope i =
      0.5 - 0.5 * Real.cos (2 * Real.pi * (i : ℝ) / 1023) := by
    intro i
    unfold garray_frames_envelope
    rw [hN]
  have hsym : ∀ i : Nat, i < 1024 →
      garray_frames_envelope i = garray_frames_envelope (1023 - i) := by
    intro i hi
    rw [hval i, hval (1023 - i)]
    have hcast : ((1023 - i : Nat) : ℝ) = 1023 - (i : ℝ) := by
      have : i ≤ 1023 := by omega
      push_cast [this]
      ring
    rw [hcast]
    have harg : 2 * Real.pi * (1023 - (i : ℝ)) / 1023 =
        2 * Real.pi - 2 * Real.pi * (i : ℝ) / 1023 := by
      field_simp
      ring
    rw [harg, Real.cos_two_pi_sub]
  have hzero : garray_frames_envelope 0 = 0 := by
    rw [hval 0]
    simp
  have hlast : garray_frames_envelope 1023 = 0 := by
    rw [hval 1023]
    have harg : 2 * Real.pi * ((1023 : Nat) : ℝ) / 1023 = 2 * Real.pi := by
      push_cast
      field_simp
    rw [harg, Real.cos_two_pi]
    norm_num
  refine ⟨fun i _ => hval i, hsym, hzero, hlast, ?_⟩
  unfold g_envelope_rms
  norm_num [kframes_envelope]

/-- C7 witness: the stated form and the symmetry conclusion applied at
i = 1, hypotheses discharged concretely. -/
theorem C7_envelope_table_witness :
    ((1 : Nat) < 1024 ∧
      garray_frames_envelope 1 =
        0.5 - 0.5 * Real.cos (2 * Real.pi * ((1 : Nat) : ℝ) / 1023)) ∧
    ((1 : Nat) < 1024 ∧
      garray_frames_envelope 1 = garray_frames_envelope (1023 - 1)) :=
  ⟨⟨by decide, C7_envelope_table_properties.1 1 (by decide)⟩,
   ⟨by decide, C7_envelope_table_properties.2.1 1 (by decide)⟩⟩

end Surround3
